import Mathlib

/-!
# Verification of the glossary batch validation and manifest engine

Shallow embedding of the repository's validation pipeline
(`scripts/validate-batch.ts`), its Zod rule set
(`packages/shared/src/validators/glossaryBatch.zod.ts`) and the manifest
merger (`scripts/update-manifest.ts`).  Pure functions are translated
directly; the file-system reads of the scripts become explicit parameters
(the parsed batch, the loaded corpus, the loaded manifest), and the
ISO-8601 timestamps that the manifest merger compares through
`new Date(x).getTime()` are abstracted to their epoch-millisecond value
(a `Nat`), which `Date` parsing maps to monotonically.
-/

/-! ## Character classes and string shapes -/

/-- `[a-z0-9]`: one character of the kebab-case alphabet. -/
def isLowerAlnum (c : Char) : Bool :=
  ('a' ≤ c && c ≤ 'z') || ('0' ≤ c && c ≤ '9')

/-- A character JS `\s` matches (the ASCII ones; the section contents of
this development contain no exotic Unicode whitespace). -/
def isWsChar (c : Char) : Bool :=
  c = ' ' || c = '\t' || c = '\n' || c = '\r' || c = '\x0b' || c = '\x0c'

/-- State machine for `KEBAB_CASE_REGEX = /^[a-z0-9]+(-[a-z0-9]+)*$/`:
`prevAl` records whether the previous character was alphanumeric (so a
hyphen may follow and the string may end). -/
def kebabAux (prevAl : Bool) : List Char → Bool
  | [] => prevAl
  | c :: cs =>
    if c = '-' then prevAl && kebabAux false cs
    else isLowerAlnum c && kebabAux true cs

/-- `KEBAB_CASE_REGEX.test s`: lowercase alphanumeric segments joined by
single hyphens, no leading/trailing/consecutive hyphens. -/
def isKebabCase (s : String) : Bool :=
  kebabAux false s.data

/-- `TAG_PATTERN = /^[a-z0-9-]+$/`. -/
def isTagFormat (s : String) : Bool :=
  s.data ≠ [] && s.data.all (fun c => isLowerAlnum c || c = '-')

/-- `ISO_DATE_REGEX = /^\d{4}-\d{2}-\d{2}T\d{2}:\d{2}:\d{2}(\.\d{3})?Z$/`. -/
def isIsoDate (s : String) : Bool :=
  match s.data with
  | y1 :: y2 :: y3 :: y4 :: '-' :: m1 :: m2 :: '-' :: d1 :: d2 :: 'T' ::
    h1 :: h2 :: ':' :: n1 :: n2 :: ':' :: s1 :: s2 :: rest =>
      [y1, y2, y3, y4, m1, m2, d1, d2, h1, h2, n1, n2, s1, s2].all (·.isDigit) &&
      (match rest with
       | ['Z'] => true
       | '.' :: a :: b :: c :: ['Z'] => [a, b, c].all (·.isDigit)
       | _ => false)
  | _ => false

/-! ## Markdown pattern tests

Each JS regex used by the sources is embedded as a `Bool`-valued test on
the character list of the scanned string.  `RegExp.test` is matching
anywhere in the string; a `.` in those regexes matches any character but
a newline, `[\s\S]` matches any character. -/

/-- Token `t` matches here and the continuation accepts the remainder. -/
def tokThen (t : List Char) (k : List Char → Bool) (s : List Char) : Bool :=
  t.isPrefixOf s && k (s.drop t.length)

/-- Search for token `t` at the current position or later, skipping
characters; a newline may be skipped only when `allowNl` is true (this is
the difference between `.*?` and `[\s\S]*?` middles).  Succeeds when `t`
matches somewhere and the continuation `k` accepts what follows it. -/
def seekTok (allowNl : Bool) (t : List Char) (k : List Char → Bool) : List Char → Bool
  | [] => tokThen t k []
  | c :: cs => tokThen t k (c :: cs) || ((allowNl || !(c = '\n')) && seekTok allowNl t k cs)

/-- Try `f` at every suffix of the scanned string (an unanchored match). -/
def scanFor (f : List Char → Bool) : List Char → Bool
  | [] => f []
  | s@(_ :: cs) => f s || scanFor f cs

/-- `/#{1,6}\s/` anchored at the current position: up to `n` leading `#`
then one whitespace character. -/
def headerAt : Nat → List Char → Bool
  | 0, _ => false
  | _ + 1, [] => false
  | n + 1, c :: cs =>
    c = '#' && ((match cs with | c2 :: _ => isWsChar c2 | [] => false) || headerAt n cs)

/-- `/\*\*.*?\*\*/` (bold). -/
def boldPat (s : List Char) : Bool :=
  seekTok true "**".data (seekTok false "**".data (fun _ => true)) s

/-- `/\*.*?\*/` (italic, asterisk). -/
def italicPat (s : List Char) : Bool :=
  seekTok true "*".data (seekTok false "*".data (fun _ => true)) s

/-- `/_.*?_/` (italic, underscore). -/
def italicUnderscorePat (s : List Char) : Bool :=
  seekTok true "_".data (seekTok false "_".data (fun _ => true)) s

/-- `/#{1,6}\s/` (headers). -/
def headerPat (s : List Char) : Bool :=
  scanFor (headerAt 6) s

/-- `/\[.*?\]\(.*?\)/` (links). -/
def linkPat (s : List Char) : Bool :=
  seekTok true "[".data (seekTok false "](".data (seekTok false ")".data (fun _ => true))) s

/-- `/!\[.*?\]\(.*?\)/` (images). -/
def imagePat (s : List Char) : Bool :=
  seekTok true "![".data (seekTok false "](".data (seekTok false ")".data (fun _ => true))) s

/-- Code fences: three backquotes, then `[\s\S]*?`, then three backquotes. -/
def codeBlockPat (s : List Char) : Bool :=
  seekTok true "```".data (seekTok true "```".data (fun _ => true)) s

/-- Inline code: a backquote, `.*?`, a backquote. -/
def inlineCodePat (s : List Char) : Bool :=
  seekTok true "`".data (seekTok false "`".data (fun _ => true)) s

/-- `MARKDOWN_PATTERNS` of `glossaryBatch.zod.ts` (eight patterns: the six
visual ones plus code blocks and inline code). -/
def MARKDOWN_PATTERNS : List (List Char → Bool) :=
  [boldPat, italicPat, italicUnderscorePat, headerPat, linkPat, imagePat,
   codeBlockPat, inlineCodePat]

/-- `containsMarkdown` of `glossaryBatch.zod.ts`. -/
def containsMarkdown (text : String) : Bool :=
  MARKDOWN_PATTERNS.any (fun p => p text.data)

/-! ## Data model (`glossary.generated.ts` / the Zod schemas) -/

/-- `VALID_CATEGORIES`: the 26 fixed, case-sensitive category names. -/
def VALID_CATEGORIES : List String :=
  ["Navigation", "Weather", "Communication", "Safety", "Performance",
   "Flight Controls", "Navigation Systems", "Equipment", "Procedures",
   "Electrical Systems", "Electrical", "Pneumatic Systems",
   "Environmental Systems", "Ice Protection Systems", "Cargo Systems",
   "Hydraulic Systems", "Communication Systems", "Lighting Systems",
   "Cabin Systems", "Fire Protection Systems", "Flight Instruments",
   "Engine Systems", "System Controls", "Safety Equipment",
   "Communications", "Landing Gear"]

/-- `RELATIONSHIP_TYPES`, as a closed sum type (`z.enum` rejects anything
else at the type boundary, so a decoded relationship always carries one of
these four). -/
inductive SemanticRelationshipType where
  | broader
  | narrower
  | related
  | seeAlso
deriving DecidableEq

/-- `SemanticRelationship`. -/
structure SemanticRelationship where
  termId : String
  type : SemanticRelationshipType
  description : Option String
deriving DecidableEq

/-- `GlossarySection`: one `content` string. -/
structure GlossarySection where
  content : String
deriving DecidableEq

/-- The closed `sections` record of a term: `whatItIs` mandatory, four
optional named entries, no other keys (`.strict()`). -/
structure GlossarySections where
  whatItIs : GlossarySection
  location : Option GlossarySection
  howItWorks : Option GlossarySection
  whatYouShouldDo : Option GlossarySection
  troubleshooting : Option GlossarySection
deriving DecidableEq

/-- `GlossaryTerm`. -/
structure GlossaryTerm where
  id : String
  title : String
  category : String
  sections : GlossarySections
  synonyms : List String
  tags : List String
  relationships : List SemanticRelationship
  createdAt : String
  updatedAt : String
deriving DecidableEq

/-- `GlossaryBatch`. -/
structure GlossaryBatch where
  terms : List GlossaryTerm
deriving DecidableEq

/-- `Object.entries(term.sections)` in the closed record's declared key
order: the mandatory `whatItIs` then each optional section that is
present. -/
def sectionEntries (t : GlossaryTerm) : List (String × GlossarySection) :=
  [("whatItIs", t.sections.whatItIs)]
    ++ (match t.sections.location with | some s => [("location", s)] | none => [])
    ++ (match t.sections.howItWorks with | some s => [("howItWorks", s)] | none => [])
    ++ (match t.sections.whatYouShouldDo with | some s => [("whatYouShouldDo", s)] | none => [])
    ++ (match t.sections.troubleshooting with | some s => [("troubleshooting", s)] | none => [])

/-! ## The Zod pass (`validateZodSchema` over `GlossaryBatchSchema`)

Issues are collected as `(path, message)` pairs in declaration order, then
rendered as the script renders `err.path.join('.')`.  The typed embedding
makes the `.strict()` unknown-key checks and the `z.enum` relationship-type
check unfailable (a decoded value cannot carry them), so they produce no
issues here. -/

/-- Issues of `GlossarySectionSchema` at `path`: the plain-text refinement
and the 10–2000 character band on `content`. -/
def sectionIssues (path : String) (sec : GlossarySection) : List (String × String) :=
  (if containsMarkdown sec.content then
     [(path ++ ".content", "Content must be plain text only - no markdown or HTML formatting allowed")]
   else [])
  ++ (if sec.content.length < 10 then
        [(path ++ ".content", "Content must be at least 10 characters")]
      else [])
  ++ (if sec.content.length > 2000 then
        [(path ++ ".content", "Content must not exceed 2000 characters")]
      else [])

/-- Issues of an optional section. -/
def optSectionIssues (path : String) (o : Option GlossarySection) : List (String × String) :=
  match o with
  | some s => sectionIssues path s
  | none => []

/-- Issues of `SemanticRelationshipSchema` at `path`. -/
def relIssues (path : String) (r : SemanticRelationship) : List (String × String) :=
  (if isKebabCase r.termId then []
   else [(path ++ ".termId", "termId must be in kebab-case format")])
  ++ (if r.termId.length < 1 then [(path ++ ".termId", "termId cannot be empty")] else [])
  ++ (if r.termId.length > 100 then [(path ++ ".termId", "termId must not exceed 100 characters")] else [])
  ++ (match r.description with
      | none => []
      | some d =>
        (if d.length < 10 then [(path ++ ".description", "Description must be at least 10 characters if provided")] else [])
        ++ (if d.length > 500 then [(path ++ ".description", "Description must not exceed 500 characters")] else []))

/-- Issues of `GlossaryTermSchema` at `path`, field by field in the
schema's declaration order. -/
def termIssues (path : String) (t : GlossaryTerm) : List (String × String) :=
  (if isKebabCase t.id then []
   else [(path ++ ".id", "ID must be in kebab-case format (e.g., \"flight-level\")")])
  ++ (if t.id.length < 1 then [(path ++ ".id", "ID cannot be empty")] else [])
  ++ (if t.id.length > 100 then [(path ++ ".id", "ID must not exceed 100 characters")] else [])
  ++ (if t.title.length < 1 then [(path ++ ".title", "Title cannot be empty")] else [])
  ++ (if t.title.length > 200 then [(path ++ ".title", "Title must not exceed 200 characters")] else [])
  ++ (if VALID_CATEGORIES.contains t.category then []
      else [(path ++ ".category", "Invalid enum value")])
  ++ sectionIssues (path ++ ".sections.whatItIs") t.sections.whatItIs
  ++ optSectionIssues (path ++ ".sections.location") t.sections.location
  ++ optSectionIssues (path ++ ".sections.howItWorks") t.sections.howItWorks
  ++ optSectionIssues (path ++ ".sections.whatYouShouldDo") t.sections.whatYouShouldDo
  ++ optSectionIssues (path ++ ".sections.troubleshooting") t.sections.troubleshooting
  ++ (t.synonyms.enum.flatMap (fun p =>
        (if p.2.length < 1 then [(path ++ ".synonyms." ++ toString p.1, "String must contain at least 1 character(s)")] else [])
        ++ (if p.2.length > 100 then [(path ++ ".synonyms." ++ toString p.1, "String must contain at most 100 character(s)")] else [])))
  ++ (t.tags.enum.flatMap (fun p =>
        (if isTagFormat p.2 then []
         else [(path ++ ".tags." ++ toString p.1, "Tags must be lowercase with hyphens only")])
        ++ (if p.2.length < 1 then [(path ++ ".tags." ++ toString p.1, "String must contain at least 1 character(s)")] else [])
        ++ (if p.2.length > 50 then [(path ++ ".tags." ++ toString p.1, "String must contain at most 50 character(s)")] else [])))
  ++ (t.relationships.enum.flatMap (fun p =>
        relIssues (path ++ ".relationships." ++ toString p.1) p.2))
  ++ (if isIsoDate t.createdAt then []
      else [(path ++ ".createdAt", "createdAt must be in ISO 8601 format (e.g., \"2024-01-01T00:00:00Z\")")])
  ++ (if isIsoDate t.updatedAt then []
      else [(path ++ ".updatedAt", "updatedAt must be in ISO 8601 format (e.g., \"2024-01-01T00:00:00Z\")")])

/-- `ids.length === new Set(ids).size` of the batch-level refinement. -/
def allIdsUnique (b : GlossaryBatch) : Bool :=
  (b.terms.map (·.id)).dedup.length == (b.terms.map (·.id)).length

/-- Issues of `GlossaryBatchSchema`: the `min(1)` bound and every term's
issues, then — only when the base parse is clean, as a Zod refinement runs
only on a successfully parsed value — the batch-wide id-uniqueness
refinement. -/
def zodIssues (b : GlossaryBatch) : List (String × String) :=
  let base :=
    (if b.terms.length < 1 then [("terms", "Batch must contain at least 1 term")] else [])
    ++ b.terms.enum.flatMap (fun p => termIssues ("terms." ++ toString p.1) p.2)
  base ++ (if base.isEmpty && !allIdsUnique b then
             [("terms", "All term IDs must be unique within a batch")]
           else [])

/-- `validateZodSchema` of `validate-batch.ts`: each Zod issue rendered as
`Zod Error at <path>: <message>`. -/
def validateZodSchema (b : GlossaryBatch) : List String :=
  (zodIssues b).map (fun p => "Zod Error at " ++ p.1 ++ ": " ++ p.2)

/-! ## The JSON-Schema pass -/

/-- Modelled from the spec: `schemas/batch.schema.json` itself is not among
the repository files available here, only its consumer
(`validateJsonSchema` in `validate-batch.ts`, which compiles it with AJV
and renders each violation as `JSON Schema Error at <instancePath>:
<message>`).  Per the spec's Structural Validator contract the declarative
schema describes the same declared shape the Zod pass enforces (§4.1: "two
independently-specified validation passes over the same rules"), and the
Zod file's own header says it mirrors `batch.schema.json` "with additional
runtime validation" — that additional part being its two custom
refinements (the plain-text-content refinement and the batch-wide
id-uniqueness refinement), which a declarative schema does not express.
So this pass checks the shared declarative rules: field patterns, length
bounds, the category enumeration, the timestamp format and the
at-least-one-term bound. -/
def jsonSchemaSectionIssues (path : String) (sec : GlossarySection) : List (String × String) :=
  (if sec.content.length < 10 then [(path ++ "/content", "must NOT have fewer than 10 characters")] else [])
  ++ (if sec.content.length > 2000 then [(path ++ "/content", "must NOT have more than 2000 characters")] else [])

/-- Modelled from the spec: the declarative schema's per-term rules (see
`jsonSchemaSectionIssues`). -/
def jsonSchemaTermIssues (path : String) (t : GlossaryTerm) : List (String × String) :=
  (if isKebabCase t.id then [] else [(path ++ "/id", "must match pattern \"^[a-z0-9]+(-[a-z0-9]+)*$\"")])
  ++ (if t.id.length < 1 then [(path ++ "/id", "must NOT have fewer than 1 characters")] else [])
  ++ (if t.id.length > 100 then [(path ++ "/id", "must NOT have more than 100 characters")] else [])
  ++ (if t.title.length < 1 then [(path ++ "/title", "must NOT have fewer than 1 characters")] else [])
  ++ (if t.title.length > 200 then [(path ++ "/title", "must NOT have more than 200 characters")] else [])
  ++ (if VALID_CATEGORIES.contains t.category then []
      else [(path ++ "/category", "must be equal to one of the allowed values")])
  ++ jsonSchemaSectionIssues (path ++ "/sections/whatItIs") t.sections.whatItIs
  ++ (match t.sections.location with
      | some s => jsonSchemaSectionIssues (path ++ "/sections/location") s | none => [])
  ++ (match t.sections.howItWorks with
      | some s => jsonSchemaSectionIssues (path ++ "/sections/howItWorks") s | none => [])
  ++ (match t.sections.whatYouShouldDo with
      | some s => jsonSchemaSectionIssues (path ++ "/sections/whatYouShouldDo") s | none => [])
  ++ (match t.sections.troubleshooting with
      | some s => jsonSchemaSectionIssues (path ++ "/sections/troubleshooting") s | none => [])
  ++ (t.synonyms.enum.flatMap (fun p =>
        (if p.2.length < 1 then [(path ++ "/synonyms/" ++ toString p.1, "must NOT have fewer than 1 characters")] else [])
        ++ (if p.2.length > 100 then [(path ++ "/synonyms/" ++ toString p.1, "must NOT have more than 100 characters")] else [])))
  ++ (t.tags.enum.flatMap (fun p =>
        (if isTagFormat p.2 then [] else [(path ++ "/tags/" ++ toString p.1, "must match pattern \"^[a-z0-9-]+$\"")])
        ++ (if p.2.length < 1 then [(path ++ "/tags/" ++ toString p.1, "must NOT have fewer than 1 characters")] else [])
        ++ (if p.2.length > 50 then [(path ++ "/tags/" ++ toString p.1, "must NOT have more than 50 characters")] else [])))
  ++ (t.relationships.enum.flatMap (fun p =>
        (if isKebabCase p.2.termId then []
         else [(path ++ "/relationships/" ++ toString p.1 ++ "/termId", "must match pattern \"^[a-z0-9]+(-[a-z0-9]+)*$\"")])
        ++ (match p.2.description with
            | none => []
            | some d =>
              (if d.length < 10 then [(path ++ "/relationships/" ++ toString p.1 ++ "/description", "must NOT have fewer than 10 characters")] else [])
              ++ (if d.length > 500 then [(path ++ "/relationships/" ++ toString p.1 ++ "/description", "must NOT have more than 500 characters")] else []))))
  ++ (if isIsoDate t.createdAt then [] else [(path ++ "/createdAt", "must match pattern")])
  ++ (if isIsoDate t.updatedAt then [] else [(path ++ "/updatedAt", "must match pattern")])

/-- Modelled from the spec: `validateJsonSchema` of `validate-batch.ts` —
AJV run with `allErrors: true` over the declarative schema, every
violation rendered as `JSON Schema Error at <path>: <message>`. -/
def validateJsonSchema (b : GlossaryBatch) : List String :=
  ((if b.terms.length < 1 then [("/terms", "must NOT have fewer than 1 items")] else [])
   ++ b.terms.enum.flatMap (fun p => jsonSchemaTermIssues ("/terms/" ++ toString p.1) p.2)).map
    (fun p => "JSON Schema Error at " ++ p.1 ++ ": " ++ p.2)

/-! ## The semantic plain-text sweep (`checkForMarkdown`) -/

/-- `markdownPatterns` local to `checkForMarkdown` in `validate-batch.ts`:
six named patterns — bold, both italics, headers, links, images — and,
unlike the Zod file's `MARKDOWN_PATTERNS`, no code-block or inline-code
pattern. -/
def markdownPatterns : List ((List Char → Bool) × String) :=
  [(boldPat, "bold (**text**)"),
   (italicPat, "italic (*text*)"),
   (italicUnderscorePat, "italic (_text_)"),
   (headerPat, "headers (#)"),
   (linkPat, "links ([text](url))"),
   (imagePat, "images (![alt](url))")]

/-- The warning `checkForMarkdown` pushes for one term, section and
pattern name. -/
def mdWarn (termId sectionName patName : String) : String :=
  "Term \"" ++ termId ++ "\" section \"" ++ sectionName ++ "\" contains "
    ++ patName ++ " - plain text only!"

/-- `checkForMarkdown` of `validate-batch.ts`: scan each section's content
of each term against the six patterns (`if (section?.content)` skips an
empty content string — JS truthiness). -/
def checkForMarkdown (batch : GlossaryBatch) : List String :=
  batch.terms.flatMap (fun term =>
    (sectionEntries term).flatMap (fun e =>
      if e.2.content == "" then []
      else markdownPatterns.filterMap (fun p =>
        if p.1 e.2.content.data then some (mdWarn term.id e.1 p.2) else none)))

/-! ## Cross-reference resolution (`validateCrossReferences`) -/

/-- The error `validateCrossReferences` pushes for a dangling target. -/
def crossRefMsg (termId refId : String) : String :=
  "Term \"" ++ termId ++ "\" references unknown term \"" ++ refId ++ "\" in relationships"

/-- The identifier universe: batch term ids then existing (corpus) term
ids; `Set` membership in the script is list membership here. -/
def allTermIds (batch : GlossaryBatch) (existingTerms : List GlossaryTerm) : List String :=
  batch.terms.map (·.id) ++ existingTerms.map (·.id)

/-- `validateCrossReferences` of `validate-batch.ts`: one error per
relationship whose `termId` is outside the universe (the function also
declares a `warnings` array it never fills; the returned list is the
errors). -/
def validateCrossReferences (batch : GlossaryBatch) (existingTerms : List GlossaryTerm) : List String :=
  batch.terms.flatMap (fun term =>
    term.relationships.filterMap (fun rel =>
      if (allTermIds batch existingTerms).contains rel.termId then none
      else some (crossRefMsg term.id rel.termId)))

/-! ## Quiz-readiness audit (`checkQuizRequirements`) -/

/-- `categoryCounts.set(cat, (categoryCounts.get(cat) || 0) + 1)` on a JS
`Map`: update in place if the key is present, else append (insertion
order is preserved). -/
def bumpCount (m : List (String × Nat)) (k : String) : List (String × Nat) :=
  match m with
  | [] => [(k, 1)]
  | p :: rest => if p.1 = k then (p.1, p.2 + 1) :: rest else p :: bumpCount rest k

/-- The per-category counts over corpus then batch, in insertion order. -/
def categoryCounts (batch : GlossaryBatch) (existingTerms : List GlossaryTerm) : List (String × Nat) :=
  batch.terms.foldl (fun m t => bumpCount m t.category)
    (existingTerms.foldl (fun m t => bumpCount m t.category) [])

/-- `[...new Set(xs)]`: deduplicate keeping the first occurrence's order. -/
def uniqueFirst (l : List String) : List String :=
  l.foldl (fun acc x => if x ∈ acc then acc else acc ++ [x]) []

/-- The generic under-4 warning of `checkQuizRequirements`. -/
def quizMsg (category : String) (count : Nat) : String :=
  "Category \"" ++ category ++ "\" has only " ++ toString count
    ++ " term(s) - need 4+ for quiz generation. Add " ++ toString (4 - count) ++ " more term(s)."

/-- The new-category warning of `checkQuizRequirements`. -/
def newCatMsg (category : String) (count : Nat) : String :=
  "NEW category \"" ++ category ++ "\" introduced with only " ++ toString count
    ++ " term(s) - add " ++ toString (4 - count) ++ " more in this batch or next."

/-- `checkQuizRequirements` of `validate-batch.ts`: a generic warning per
counted category under 4, then a distinct warning per category introduced
by the batch (present in no existing term) whose batch-local count is
under 4. -/
def checkQuizRequirements (batch : GlossaryBatch) (existingTerms : List GlossaryTerm) : List String :=
  let counts := categoryCounts batch existingTerms
  let lowWarnings := counts.filterMap (fun p =>
    if p.2 < 4 then some (quizMsg p.1 p.2) else none)
  let newCategories := (batch.terms.map (·.category)).filter
    (fun cat => !(existingTerms.any (fun t => t.category == cat)))
  let newWarnings := (uniqueFirst newCategories).filterMap (fun cat =>
    let n := (batch.terms.filter (fun t => t.category == cat)).length
    if n < 4 then some (newCatMsg cat n) else none)
  lowWarnings ++ newWarnings

/-! ## The validation pipeline (`validateBatch`) -/

/-- `ValidationResult` of `validate-batch.ts`. -/
structure ValidationResult where
  valid : Bool
  errors : List String
  warnings : List String
  termCount : Nat
  categories : List String
deriving DecidableEq

/-- `validateBatch` of `validate-batch.ts` on an already-parsed payload
(the file load is the caller's): run both structural passes; if either
reported a violation, stop with those errors (`termCount: 0`,
`categories: []`, no warnings); otherwise run the markdown sweep, the
cross-reference resolution against the loaded corpus and the
quiz-readiness audit, and aggregate. -/
def validateBatch (batch : GlossaryBatch) (existingTerms : List GlossaryTerm) : ValidationResult :=
  let jsonSchemaErrors := validateJsonSchema batch
  let zodErrors := validateZodSchema batch
  let structuralErrors := jsonSchemaErrors ++ zodErrors
  if structuralErrors.isEmpty then
    let markdownWarnings := checkForMarkdown batch
    let crossRefErrors := validateCrossReferences batch existingTerms
    let quizWarnings := checkQuizRequirements batch existingTerms
    let errors := structuralErrors ++ crossRefErrors
    { valid := errors.isEmpty
      errors := errors
      warnings := markdownWarnings ++ quizWarnings
      termCount := batch.terms.length
      categories := uniqueFirst (batch.terms.map (·.category)) }
  else
    { valid := false, errors := structuralErrors, warnings := [], termCount := 0, categories := [] }

/-! ## The manifest merger (`update-manifest.ts`) -/

/-- `BatchManifestEntry`; `createdAt` is the epoch-millisecond value of
the ISO timestamp the script stores (`new Date().toISOString()`), the
form in which `sortManifest` compares it (`new Date(x).getTime()`). -/
structure BatchManifestEntry where
  id : String
  path : String
  createdAt : Nat
  termCount : Nat
  categories : List String
deriving DecidableEq

/-- `BatchManifest`: `{ batches: BatchManifestEntry[] }`. -/
structure BatchManifest where
  batches : List BatchManifestEntry
deriving DecidableEq

/-- The characters of a path after its last `/`. -/
def afterLastSlash (l : List Char) : List Char :=
  l.foldl (fun acc c => if c = '/' then [] else acc ++ [c]) []

/-- `extractBatchId`: `path.basename(filePath, '.json')` — the file name
with a trailing `.json` extension removed (unless the name is the bare
extension itself, which `basename` keeps). -/
def extractBatchId (filePath : String) : String :=
  let name := afterLastSlash filePath.data
  if name ≠ ".json".data && ".json".data.isSuffixOf name then
    String.mk (name.take (name.length - 5))
  else
    String.mk name

/-- `createManifestEntry`: id from the artifact name, the source path
(the script stores it relativized to the working directory with
backslashes normalized; the path string is kept as given here),
`createdAt` stamped with the time of this merge operation (`now`), the
term count and the deduplicated categories. -/
def createManifestEntry (batchPath : String) (now : Nat) (batch : GlossaryBatch) : BatchManifestEntry :=
  { id := extractBatchId batchPath
    path := batchPath
    createdAt := now
    termCount := batch.terms.length
    categories := uniqueFirst (batch.terms.map (·.category)) }

/-- Stable insertion of an entry into a list already descending by
`createdAt`: skip while strictly newer entries precede, so an existing
entry with the same timestamp keeps its place before the inserted one —
the stability `Array.prototype.sort` guarantees. -/
def insertByDate (e : BatchManifestEntry) : List BatchManifestEntry → List BatchManifestEntry
  | [] => [e]
  | x :: xs => if e.createdAt < x.createdAt then x :: insertByDate e xs else e :: x :: xs

/-- `sortManifest`: `batches.sort((a, b) => dateB - dateA)` — a stable
sort descending by `createdAt`, embedded as stable insertion sort (the
same function on every input). -/
def sortManifest (manifest : BatchManifest) : BatchManifest :=
  { batches := manifest.batches.foldr insertByDate [] }

/-- The upsert step of `updateManifest`: replace in place the first entry
with the new entry's id (`findIndex` then assignment), else push. -/
def upsertEntry (manifest : BatchManifest) (entry : BatchManifestEntry) : BatchManifest :=
  match manifest.batches.findIdx? (fun b => b.id == entry.id) with
  | some i => { batches := manifest.batches.set i entry }
  | none => { batches := manifest.batches ++ [entry] }

/-- `updateManifest` of `update-manifest.ts` on loaded data (file I/O is
the caller's; a missing manifest file loads as `{ batches: [] }`): build
the entry, upsert it by id, then sort the whole manifest by date. -/
def updateManifest (manifest : BatchManifest) (batchPath : String) (now : Nat) (batch : GlossaryBatch) : BatchManifest :=
  sortManifest (upsertEntry manifest (createManifestEntry batchPath now batch))

/-- The engine's persistent state: the manifest is the only mutable state
the engine owns. -/
structure EngineState where
  manifest : BatchManifest
deriving DecidableEq

/-- The `validate` command: it only reads the batch file and the corpus —
it never touches the manifest — so it returns the report and passes the
state through unchanged. -/
def runValidation (st : EngineState) (batch : GlossaryBatch) (existingTerms : List GlossaryTerm) :
    ValidationResult × EngineState :=
  (validateBatch batch existingTerms, st)

/-! ## Specification-side helpers used to state the properties -/

/-- The value a JS `Map` lookup sees in the association-list embedding. -/
def lookupCount (m : List (String × Nat)) (k : String) : Option Nat :=
  (m.find? (fun p => p.1 == k)).map (·.2)

/-- Descending order on manifest entries: the canonical manifest order. -/
def descByDate (a b : BatchManifestEntry) : Prop :=
  b.createdAt ≤ a.createdAt

/-! ## Concrete inputs for the witnesses and counterexamples -/

/-- A well-formed term with a fixed plain-text definition of 62
characters, used to build the concrete batches and corpora below. -/
def plainTerm (i c : String) : GlossaryTerm :=
  { id := i
    title := "Term"
    category := c
    sections := ⟨⟨"A standard nominal altitude of an aircraft used in procedures."⟩, none, none, none, none⟩
    synonyms := []
    tags := []
    relationships := []
    createdAt := "2025-01-01T00:00:00Z"
    updatedAt := "2025-01-01T00:00:00Z" }

/-- A corpus with four published Navigation terms. -/
def navCorpus : List GlossaryTerm :=
  [plainTerm "nav-one" "Navigation", plainTerm "nav-two" "Navigation",
   plainTerm "nav-three" "Navigation", plainTerm "nav-four" "Navigation"]

/-- A structurally valid batch whose only section content is exactly 241
characters long. -/
def batch241 : GlossaryBatch :=
  ⟨[{ plainTerm "alpha-term" "Navigation" with
      sections := ⟨⟨String.mk (List.replicate 241 'a')⟩, none, none, none, none⟩ }]⟩

/-- A batch whose only section content is 2001 characters long. -/
def batch2001 : GlossaryBatch :=
  ⟨[{ plainTerm "alpha-term" "Navigation" with
      sections := ⟨⟨String.mk (List.replicate 2001 'a')⟩, none, none, none, none⟩ }]⟩

/-- A batch whose section content carries inline code (backquotes) and no
other markup. -/
def inlineCodeBatch : GlossaryBatch :=
  ⟨[{ plainTerm "code-term" "Navigation" with
      sections := ⟨⟨"see `ls -la` for details"⟩, none, none, none, none⟩ }]⟩

/-- A batch whose section content carries bold markup. -/
def boldBatch : GlossaryBatch :=
  ⟨[{ plainTerm "bold-term" "Navigation" with
      sections := ⟨⟨"uses **bold** text in the definition"⟩, none, none, none, none⟩ }]⟩

/-- A batch with one term whose id violates the kebab-case pattern. -/
def badIdBatch : GlossaryBatch :=
  ⟨[plainTerm "Flight_Level" "Navigation"]⟩

/-- A batch with two individually well-formed terms sharing one id. -/
def dupIdBatch : GlossaryBatch :=
  ⟨[plainTerm "metar" "Weather", plainTerm "metar" "Weather"]⟩

/-- A batch with a relationship to an id that exists nowhere. -/
def ghostRefBatch : GlossaryBatch :=
  ⟨[{ plainTerm "alpha-term" "Navigation" with
      relationships := [⟨"ghost-term", SemanticRelationshipType.related, none⟩] }]⟩

/-- A batch whose only relationship points at the carrying term itself. -/
def selfRefBatch : GlossaryBatch :=
  ⟨[{ plainTerm "alpha-term" "Navigation" with
      relationships := [⟨"alpha-term", SemanticRelationshipType.related, none⟩] }]⟩

/-- A batch introducing two terms of a category absent from `navCorpus`. -/
def newCatBatch : GlossaryBatch :=
  ⟨[plainTerm "cargo-one" "Cargo Systems", plainTerm "cargo-two" "Cargo Systems"]⟩

/-- Manifest entry dated 2025-01-01T00:00:00Z (epoch 1735689600000). -/
def janEntry : BatchManifestEntry :=
  ⟨"2025-01-01-batch-000", "data/batches/2025-01-01-batch-000.json", 1735689600000, 1, ["Navigation"]⟩

/-- Manifest entry dated 2025-03-01T00:00:00Z (epoch 1740787200000). -/
def marEntry : BatchManifestEntry :=
  ⟨"2025-03-01-batch-002", "data/batches/2025-03-01-batch-002.json", 1740787200000, 1, ["Weather"]⟩

/-- A manifest holding the 2025-03-01 and 2025-01-01 entries, in the
canonical descending order. -/
def janMarManifest : BatchManifest :=
  ⟨[marEntry, janEntry]⟩

/-- The batch merged in the 2025-02-01 example (epoch 1738368000000). -/
def febBatch : GlossaryBatch :=
  ⟨[plainTerm "ils-approach" "Safety"]⟩

/-- A batch adding one term to the Navigation category, which already has
four corpus terms. -/
def navAddBatch : GlossaryBatch :=
  ⟨[plainTerm "nav-five" "Navigation"]⟩
/-! ## Helper lemmas -/

theorem mem_insertByDate {e x : BatchManifestEntry} {l : List BatchManifestEntry} :
    x ∈ insertByDate e l ↔ x = e ∨ x ∈ l := by
  induction l with
  | nil => simp [insertByDate]
  | cons y ys ih =>
    by_cases h : e.createdAt < y.createdAt
    · simp only [insertByDate, if_pos h, List.mem_cons, ih]
      tauto
    · simp only [insertByDate, if_neg h, List.mem_cons]

theorem pairwise_insertByDate {e : BatchManifestEntry} {l : List BatchManifestEntry}
    (h : l.Pairwise descByDate) : (insertByDate e l).Pairwise descByDate := by
  induction l with
  | nil => simp [insertByDate, List.Pairwise]
  | cons y ys ih =>
    rcases List.pairwise_cons.mp h with ⟨hy, hys⟩
    by_cases hlt : e.createdAt < y.createdAt
    · rw [insertByDate, if_pos hlt]
      rw [List.pairwise_cons]
      refine ⟨?_, ih hys⟩
      intro z hz
      rcases mem_insertByDate.mp hz with rfl | hz
      · exact Nat.le_of_lt hlt
      · exact hy z hz
    · rw [insertByDate, if_neg hlt]
      rw [List.pairwise_cons]
      constructor
      · intro z hz
        rcases List.mem_cons.mp hz with rfl | hz
        · exact Nat.le_of_not_lt hlt
        · exact Nat.le_trans (hy z hz) (Nat.le_of_not_lt hlt)
      · exact h

theorem pairwise_sortManifest (m : BatchManifest) :
    (sortManifest m).batches.Pairwise descByDate := by
  rw [sortManifest]
  induction m.batches with
  | nil => simp
  | cons x xs ih => exact pairwise_insertByDate ih

/-- C6: after every manifest merge operation the resulting manifest's
entries are ordered descending by `createdAt`; in particular upserting the
2025-02-01 entry into the manifest holding the 2025-03-01 and 2025-01-01
entries yields the order [2025-03-01, 2025-02-01, 2025-01-01]. -/
theorem c6_manifest_sorted_descending :
    (∀ (m : BatchManifest) (path : String) (now : Nat) (b : GlossaryBatch),
       ((updateManifest m path now b).batches).Pairwise
         (fun a b2 => b2.createdAt ≤ a.createdAt))
    ∧ (updateManifest janMarManifest "data/batches/2025-02-01-batch-001.json"
         1738368000000 febBatch).batches.map (·.createdAt)
        = [1740787200000, 1738368000000, 1735689600000] := by
  constructor
  · intro m path now b
    exact pairwise_sortManifest _
  · decide

/-- C2: merging into the manifest is an idempotent upsert keyed by batch
id — an entry with the same id is replaced in place, otherwise the entry
is appended — so merging the same batch file twice in succession into an
empty manifest leaves exactly the one entry of the second merge. -/
theorem c2_upsert_idempotent :
    (∀ (m : BatchManifest) (e : BatchManifestEntry),
       (∀ x ∈ m.batches, x.id ≠ e.id) → upsertEntry m e = ⟨m.batches ++ [e]⟩)
    ∧ (∀ (m : BatchManifest) (e : BatchManifestEntry) (i : Nat),
       m.batches.findIdx? (fun b => b.id == e.id) = some i →
         upsertEntry m e = ⟨m.batches.set i e⟩)
    ∧ (∀ (path : String) (n1 n2 : Nat) (b : GlossaryBatch),
       (updateManifest (updateManifest ⟨[]⟩ path n1 b) path n2 b).batches
         = [createManifestEntry path n2 b]) := by
  refine ⟨?_, ?_, ?_⟩
  · intro m e h
    have hnone : m.batches.findIdx? (fun b => b.id == e.id) = none := by
      rw [List.findIdx?_eq_none_iff]
      intro x hx
      rw [beq_eq_false_iff_ne]
      exact h x hx
    rw [upsertEntry, hnone]
  · intro m e i h
    rw [upsertEntry, h]
  · intro path n1 n2 b
    have h1 : updateManifest ⟨[]⟩ path n1 b = ⟨[createManifestEntry path n1 b]⟩ := by
      rw [updateManifest, upsertEntry]
      simp [sortManifest, insertByDate]
    rw [h1, updateManifest, upsertEntry]
    have hid : (createManifestEntry path n1 b).id == (createManifestEntry path n2 b).id := by
      simp [createManifestEntry]
    simp [List.findIdx?_cons, hid, sortManifest, insertByDate]

/-- C4: when either structural pass reports a violation, validation stops
with exactly those structural errors: the report is invalid and carries no
markdown, cross-reference or quiz output at all. -/
theorem c4_structural_fail_fast (batch : GlossaryBatch) (corpus : List GlossaryTerm)
    (h : validateJsonSchema batch ≠ [] ∨ validateZodSchema batch ≠ []) :
    validateBatch batch corpus =
      { valid := false
        errors := validateJsonSchema batch ++ validateZodSchema batch
        warnings := []
        termCount := 0
        categories := [] } := by
  have hne : (validateJsonSchema batch ++ validateZodSchema batch).isEmpty = false := by
    rw [List.isEmpty_eq_false]
    intro hnil
    rw [List.append_eq_nil] at hnil
    rcases h with h | h
    · exact h hnil.1
    · exact h hnil.2
  simp [validateBatch, hne]

/-- C4 witness: the kebab-case violation of `badIdBatch` trips the Zod
pass, and validation stops with the structural errors only. -/
theorem c4_structural_fail_fast_witness :
    validateBatch badIdBatch navCorpus =
      { valid := false
        errors := validateJsonSchema badIdBatch ++ validateZodSchema badIdBatch
        warnings := []
        termCount := 0
        categories := [] } :=
  c4_structural_fail_fast badIdBatch navCorpus (Or.inr (by decide))
/-- C3: cross-reference resolution emits an error exactly for the
relationships whose `termId` is outside the union of batch and corpus
ids (the message names the offending term and missing target), and any
such error makes the whole batch invalid. -/
theorem c3_cross_reference_exactness (batch : GlossaryBatch) (corpus : List GlossaryTerm) :
    (∀ msg, msg ∈ validateCrossReferences batch corpus ↔
       ∃ t ∈ batch.terms, ∃ r ∈ t.relationships,
         (allTermIds batch corpus).contains r.termId = false
           ∧ msg = crossRefMsg t.id r.termId)
    ∧ (validateCrossReferences batch corpus ≠ [] →
       (validateBatch batch corpus).valid = false) := by
  constructor
  · intro msg
    simp only [validateCrossReferences, List.mem_flatMap, List.mem_filterMap]
    constructor
    · rintro ⟨t, ht, r, hr, heq⟩
      cases hc : (allTermIds batch corpus).contains r.termId with
      | true => rw [hc] at heq; simp at heq
      | false =>
        rw [hc] at heq
        simp only [Bool.false_eq_true, if_false, Option.some.injEq] at heq
        exact ⟨t, ht, r, hr, hc, heq.symm⟩
    · rintro ⟨t, ht, r, hr, hc, rfl⟩
      exact ⟨t, ht, r, hr, by rw [hc]; simp⟩
  · intro hne
    cases hs : (validateJsonSchema batch ++ validateZodSchema batch).isEmpty with
    | false => simp [validateBatch, hs]
    | true =>
      simp only [validateBatch, hs, if_true]
      simp only [List.isEmpty_iff] at hs ⊢
      rw [List.isEmpty_eq_false]
      intro hnil
      rw [List.append_eq_nil] at hnil
      exact hne hnil.2

/-- C3 witness: the dangling target `ghost-term` of `ghostRefBatch` is
reported with the expected message, and the batch is invalid. -/
theorem c3_cross_reference_exactness_witness :
    crossRefMsg "alpha-term" "ghost-term" ∈ validateCrossReferences ghostRefBatch navCorpus
      ∧ (validateBatch ghostRefBatch navCorpus).valid = false := by
  constructor
  · exact ((c3_cross_reference_exactness ghostRefBatch navCorpus).1 _).mpr
      ⟨(ghostRefBatch.terms.get ⟨0, by decide⟩), by decide,
       ⟨"ghost-term", SemanticRelationshipType.related, none⟩, by decide, by decide, by decide⟩
  · exact (c3_cross_reference_exactness ghostRefBatch navCorpus).2 (by decide)

/-- C10: a self-referencing relationship always resolves — the identifier
universe contains every id of the batch itself — and a batch all of whose
relationships are self-references passes cross-reference resolution with
no error. -/
theorem c10_self_reference_resolves (batch : GlossaryBatch) (corpus : List GlossaryTerm) :
    (∀ t ∈ batch.terms, ∀ r ∈ t.relationships, r.termId = t.id →
       (allTermIds batch corpus).contains r.termId = true)
    ∧ ((∀ t ∈ batch.terms, ∀ r ∈ t.relationships, r.termId = t.id) →
       validateCrossReferences batch corpus = []) := by
  have hmem : ∀ t ∈ batch.terms, ∀ r : SemanticRelationship, r.termId = t.id →
      (allTermIds batch corpus).contains r.termId = true := by
    intro t ht r hr
    have hin : r.termId ∈ allTermIds batch corpus := by
      rw [hr]
      exact List.mem_append_left _ (List.mem_map_of_mem _ ht)
    simpa [List.contains] using hin
  constructor
  · intro t ht r _ hr
    exact hmem t ht r hr
  · intro hall
    rw [validateCrossReferences, List.flatMap_eq_nil_iff]
    intro t ht
    rw [List.filterMap_eq_nil_iff]
    intro r hr
    rw [if_pos (hmem t ht r (hall t ht r hr))]

/-- C10 witness: the self-reference of `selfRefBatch` resolves and the
batch passes cross-reference resolution. -/
theorem c10_self_reference_resolves_witness :
    validateCrossReferences selfRefBatch navCorpus = [] :=
  (c10_self_reference_resolves selfRefBatch navCorpus).2 (by decide)
theorem zod_ne_nil_of_term_issue {batch : GlossaryBatch} {t : GlossaryTerm}
    (ht : t ∈ batch.terms)
    (hiss : ∀ path, termIssues path t ≠ []) :
    validateZodSchema batch ≠ [] := by
  obtain ⟨p, hp, hpt⟩ : ∃ p ∈ batch.terms.enum, p.2 = t := by
    have := List.enum_map_snd batch.terms
    rw [← this] at ht
    rcases List.mem_map.mp ht with ⟨p, hp, hpt⟩
    exact ⟨p, hp, hpt⟩
  rw [validateZodSchema]
  intro hmap
  rw [List.map_eq_nil_iff] at hmap
  rw [zodIssues] at hmap
  rcases List.append_eq_nil.mp hmap with ⟨hbase, _⟩
  rcases List.append_eq_nil.mp hbase with ⟨_, hterms⟩
  rw [List.flatMap_eq_nil_iff] at hterms
  exact hiss _ (hpt ▸ hterms p hp)

theorem kebab_term_issue {t : GlossaryTerm} (hk : isKebabCase t.id = false) :
    ∀ path, termIssues path t ≠ [] := by
  intro path
  rw [termIssues, hk]
  simp

/-- C8: a term id failing the kebab-case pattern makes the Zod structural
pass report a violation and validation return invalid, and the validation
operation leaves the engine's manifest state unchanged. -/
theorem c8_kebab_failure_no_mutation (st : EngineState) (batch : GlossaryBatch)
    (corpus : List GlossaryTerm) (t : GlossaryTerm)
    (ht : t ∈ batch.terms) (hk : isKebabCase t.id = false) :
    (runValidation st batch corpus).1.valid = false
      ∧ validateZodSchema batch ≠ []
      ∧ (runValidation st batch corpus).2 = st := by
  have hzod : validateZodSchema batch ≠ [] := zod_ne_nil_of_term_issue ht (kebab_term_issue hk)
  refine ⟨?_, hzod, rfl⟩
  show (validateBatch batch corpus).valid = false
  cases hs : (validateJsonSchema batch ++ validateZodSchema batch).isEmpty with
  | false => simp [validateBatch, hs]
  | true =>
    rw [List.isEmpty_iff, List.append_eq_nil] at hs
    exact absurd hs.2 hzod

/-- C8 witness: `Flight_Level` fails the pattern; `badIdBatch` is rejected
and the state passes through untouched. -/
theorem c8_kebab_failure_no_mutation_witness :
    (runValidation ⟨janMarManifest⟩ badIdBatch navCorpus).1.valid = false
      ∧ validateZodSchema badIdBatch ≠ []
      ∧ (runValidation ⟨janMarManifest⟩ badIdBatch navCorpus).2 = ⟨janMarManifest⟩ :=
  c8_kebab_failure_no_mutation ⟨janMarManifest⟩ badIdBatch navCorpus
    (plainTerm "Flight_Level" "Navigation") (by decide) (by decide)

theorem allIdsUnique_iff (b : GlossaryBatch) :
    allIdsUnique b = true ↔ (b.terms.map (·.id)).Nodup := by
  rw [allIdsUnique, beq_iff_eq]
  constructor
  · intro h
    have heq := (List.dedup_sublist (b.terms.map (·.id))).eq_of_length h
    rw [← heq]
    exact List.nodup_dedup _
  · intro h
    rw [List.dedup_eq_self.mpr h]

/-- C9: structural validation fails when the batch is empty or two terms
share an id (even with every term individually well-formed), and it does
so for every corpus: batch-internal id uniqueness is independent of the
corpus. -/
theorem c9_batch_level_constraints (batch : GlossaryBatch)
    (h : batch.terms = [] ∨ ¬ (batch.terms.map (·.id)).Nodup) :
    validateZodSchema batch ≠ []
      ∧ ∀ corpus : List GlossaryTerm, (validateBatch batch corpus).valid = false := by
  have hzod : validateZodSchema batch ≠ [] := by
    rw [validateZodSchema]
    intro hmap
    rw [List.map_eq_nil_iff, zodIssues] at hmap
    rcases List.append_eq_nil.mp hmap with ⟨hbase, hrefine⟩
    rcases List.append_eq_nil.mp hbase with ⟨hmin, _⟩
    rcases h with h | h
    · rw [h] at hmin
      simp at hmin
    · have hibase : ((if batch.terms.length < 1 then
          [("terms", "Batch must contain at least 1 term")] else [])
          ++ batch.terms.enum.flatMap
              (fun p => termIssues ("terms." ++ toString p.1) p.2)).isEmpty = true := by
        rw [List.isEmpty_iff, hbase]
      have huniq : allIdsUnique batch = false := by
        cases hu : allIdsUnique batch with
        | false => rfl
        | true => exact absurd ((allIdsUnique_iff batch).mp hu) h
      rw [hibase, huniq] at hrefine
      simp at hrefine
  refine ⟨hzod, ?_⟩
  intro corpus
  cases hs : (validateJsonSchema batch ++ validateZodSchema batch).isEmpty with
  | false => simp [validateBatch, hs]
  | true =>
    rw [List.isEmpty_iff, List.append_eq_nil] at hs
    exact absurd hs.2 hzod

/-- C9 witness: two individually well-formed terms sharing the id `metar`
are rejected, whatever the corpus. -/
theorem c9_batch_level_constraints_witness :
    validateZodSchema dupIdBatch ≠ []
      ∧ (validateBatch dupIdBatch navCorpus).valid = false := by
  have h := c9_batch_level_constraints dupIdBatch (Or.inr (by decide))
  exact ⟨h.1, h.2 navCorpus⟩
theorem markdownPatterns_false_on_nil {p : (List Char → Bool) × String}
    (hp : p ∈ markdownPatterns) : p.1 [] = false := by
  simp only [markdownPatterns, List.mem_cons, List.not_mem_nil, or_false] at hp
  rcases hp with h | h | h | h | h | h <;> subst h <;> rfl

/-- C7 (amended): the semantic sweep checks the six visual markup kinds —
bold, asterisk italic, underscore italic, headings, links, images — and
for every section content one of those six patterns matches, it reports a
warning naming the term, the section and the markup kind; fenced and
inline code are not among its patterns (they are checked only by the
structural pass's plain-text refinement). -/
theorem c7_sweep_six_kinds_amended (batch : GlossaryBatch) (term : GlossaryTerm)
    (e : String × GlossarySection) (p : (List Char → Bool) × String)
    (ht : term ∈ batch.terms) (he : e ∈ sectionEntries term)
    (hp : p ∈ markdownPatterns) (hm : p.1 e.2.content.data = true) :
    mdWarn term.id e.1 p.2 ∈ checkForMarkdown batch := by
  rw [checkForMarkdown, List.mem_flatMap]
  refine ⟨term, ht, ?_⟩
  rw [List.mem_flatMap]
  refine ⟨e, he, ?_⟩
  have hne : (e.2.content == "") = false := by
    cases hc : e.2.content == "" with
    | false => rfl
    | true =>
      have : e.2.content = "" := by
        rwa [beq_iff_eq] at hc
      rw [this] at hm
      rw [markdownPatterns_false_on_nil hp] at hm
      cases hm
  rw [hne]
  simp only [Bool.false_eq_true, if_false]
  rw [List.mem_filterMap]
  exact ⟨p, hp, by rw [hm]; simp⟩

/-- C7 witness: bold markup in `boldBatch` is reported against the
`whatItIs` section. -/
theorem c7_sweep_six_kinds_amended_witness :
    mdWarn "bold-term" "whatItIs" "bold (**text**)" ∈ checkForMarkdown boldBatch :=
  c7_sweep_six_kinds_amended boldBatch (boldBatch.terms.get ⟨0, by decide⟩)
    ("whatItIs", ⟨"uses **bold** text in the definition"⟩)
    (boldPat, "bold (**text**)") (by decide) (by decide)
    (by rw [markdownPatterns]; exact List.mem_cons_self _ _) (by decide)

/-- C7 counterexample: a section content carrying inline code — one of the
markup kinds the claim lists — on which the sweep reports nothing at all:
`checkForMarkdown` has no pattern for fenced or inline code. -/
theorem c7_inline_code_unswept_counterexample :
    inlineCodePat "see `ls -la` for details".data = true
      ∧ checkForMarkdown inlineCodeBatch = [] := by
  constructor
  · decide
  · decide
theorem lookupCount_bumpCount_self (m : List (String × Nat)) (k : String) :
    lookupCount (bumpCount m k) k = some ((lookupCount m k).getD 0 + 1) := by
  induction m with
  | nil => simp [bumpCount, lookupCount]
  | cons p rest ih =>
    by_cases h : p.1 = k
    · simp [bumpCount, h, lookupCount, List.find?_cons]
    · have hb : (p.1 == k) = false := beq_eq_false_iff_ne.mpr h
      simp only [bumpCount, if_neg h]
      simp only [lookupCount, List.find?_cons, hb] at ih ⊢
      exact ih

theorem lookupCount_bumpCount_ne (m : List (String × Nat)) (k k2 : String) (h : k2 ≠ k) :
    lookupCount (bumpCount m k) k2 = lookupCount m k2 := by
  induction m with
  | nil => simp [bumpCount, lookupCount, beq_eq_false_iff_ne.mpr (Ne.symm h)]
  | cons p rest ih =>
    by_cases hp : p.1 = k
    · subst hp
      simp [bumpCount, lookupCount, List.find?_cons, beq_eq_false_iff_ne.mpr (Ne.symm h)]
    · simp only [bumpCount, if_neg hp]
      by_cases hp2 : p.1 = k2
      · simp [lookupCount, List.find?_cons, beq_iff_eq.mpr hp2]
      · simp only [lookupCount, List.find?_cons, beq_eq_false_iff_ne.mpr hp2] at ih ⊢
        exact ih

theorem lookupCount_foldl_terms (k : String) (ts : List GlossaryTerm) :
    ∀ m : List (String × Nat),
      lookupCount (ts.foldl (fun acc t => bumpCount acc t.category) m) k
        = if (ts.map (·.category)).count k = 0 then lookupCount m k
          else some ((lookupCount m k).getD 0 + (ts.map (·.category)).count k) := by
  induction ts with
  | nil => intro m; simp
  | cons t rest ih =>
    intro m
    rw [List.foldl_cons, ih (bumpCount m t.category)]
    by_cases h : t.category = k
    · have hb : (t.category == k) = true := beq_iff_eq.mpr h
      rw [h, lookupCount_bumpCount_self]
      simp only [List.map_cons, List.count_cons, hb, if_true]
      by_cases hc : (rest.map (·.category)).count k = 0
      · rw [hc]
        simp
      · rw [if_neg hc, if_neg (by omega)]
        simp only [Option.getD_some]
        congr 1
        omega
    · have hb : (t.category == k) = false := beq_eq_false_iff_ne.mpr h
      rw [lookupCount_bumpCount_ne m t.category k (fun he => h he.symm)]
      simp only [List.map_cons, List.count_cons, hb, if_false]
      simp

theorem lookupCount_categoryCounts (batch : GlossaryBatch) (corpus : List GlossaryTerm) (k : String) :
    lookupCount (categoryCounts batch corpus) k
      = if ((corpus ++ batch.terms).map (·.category)).count k = 0 then none
        else some (((corpus ++ batch.terms).map (·.category)).count k) := by
  rw [categoryCounts, lookupCount_foldl_terms, lookupCount_foldl_terms]
  rw [List.map_append, List.count_append]
  simp only [show lookupCount [] k = none from rfl]
  split_ifs <;> simp_all

theorem mem_counts_of_mem_cats (batch : GlossaryBatch) (corpus : List GlossaryTerm)
    (k : String) (hmem : k ∈ (corpus ++ batch.terms).map (·.category)) :
    (k, ((corpus ++ batch.terms).map (·.category)).count k) ∈ categoryCounts batch corpus := by
  have hpos : ((corpus ++ batch.terms).map (·.category)).count k ≠ 0 := by
    have := List.count_pos_iff.mpr hmem
    omega
  have hl := lookupCount_categoryCounts batch corpus k
  rw [if_neg hpos, lookupCount] at hl
  cases hf : (categoryCounts batch corpus).find? (fun p => p.1 == k) with
  | none => rw [hf] at hl; cases hl
  | some p =>
    rw [hf] at hl
    have hl2 : p.2 = ((corpus ++ batch.terms).map (fun x => x.category)).count k :=
      Option.some.inj hl
    have hfind := List.find?_some hf
    have hp1 : p.1 = k := beq_iff_eq.mp hfind
    have hpm := List.mem_of_find?_eq_some hf
    have hpk : p = (k, ((corpus ++ batch.terms).map (·.category)).count k) := by
      cases p
      simp only at hp1 hl2
      rw [hp1, hl2]
    rw [← hpk]
    exact hpm

theorem keys_bumpCount (m : List (String × Nat)) (k : String) :
    (bumpCount m k).map (·.1)
      = if k ∈ m.map (·.1) then m.map (·.1) else m.map (·.1) ++ [k] := by
  induction m with
  | nil => simp [bumpCount]
  | cons p rest ih =>
    by_cases h : p.1 = k
    · simp [bumpCount, h]
    · have hk : ¬ k = p.1 := fun he => h he.symm
      simp only [bumpCount, if_neg h, List.map_cons, ih, List.mem_cons]
      by_cases hm : k ∈ rest.map (·.1)
      · rw [if_pos hm, if_pos (Or.inr hm)]
      · rw [if_neg hm, if_neg (by
          intro hor
          rcases hor with he | hm2
          · exact hk he
          · exact hm hm2)]
        rfl

theorem nodup_keys_bumpCount (m : List (String × Nat)) (k : String)
    (h : (m.map (·.1)).Nodup) : ((bumpCount m k).map (·.1)).Nodup := by
  rw [keys_bumpCount]
  by_cases hm : k ∈ m.map (·.1)
  · rwa [if_pos hm]
  · rw [if_neg hm]
    rw [List.nodup_append]
    exact ⟨h, List.nodup_singleton _, by simpa using hm⟩

theorem nodup_keys_foldl (ts : List GlossaryTerm) :
    ∀ m : List (String × Nat), (m.map (·.1)).Nodup →
      ((ts.foldl (fun acc t => bumpCount acc t.category) m).map (·.1)).Nodup := by
  induction ts with
  | nil => intro m hm; simpa using hm
  | cons t rest ih =>
    intro m hm
    rw [List.foldl_cons]
    exact ih _ (nodup_keys_bumpCount m t.category hm)

theorem nodup_keys_categoryCounts (batch : GlossaryBatch) (corpus : List GlossaryTerm) :
    ((categoryCounts batch corpus).map (·.1)).Nodup := by
  rw [categoryCounts]
  exact nodup_keys_foldl _ _ (nodup_keys_foldl _ _ (by simp))

theorem lookupCount_of_mem_nodup {m : List (String × Nat)} {p : String × Nat}
    (hp : p ∈ m) (h : (m.map (·.1)).Nodup) : lookupCount m p.1 = some p.2 := by
  induction m with
  | nil => cases hp
  | cons q rest ih =>
    rcases List.mem_cons.mp hp with rfl | hp2
    · simp [lookupCount, List.find?_cons]
    · rw [List.map_cons, List.nodup_cons] at h
      have hne : q.1 ≠ p.1 := by
        intro he
        exact h.1 (he ▸ List.mem_map_of_mem (·.1) hp2)
      rw [lookupCount, List.find?_cons]
      rw [show (q.1 == p.1) = false from beq_eq_false_iff_ne.mpr hne]
      exact ih hp2 h.2

theorem count_val_of_mem_counts {batch : GlossaryBatch} {corpus : List GlossaryTerm}
    {p : String × Nat} (hp : p ∈ categoryCounts batch corpus) :
    p.2 = ((corpus ++ batch.terms).map (·.category)).count p.1
      ∧ p.1 ∈ (corpus ++ batch.terms).map (·.category) := by
  have hl := lookupCount_of_mem_nodup hp (nodup_keys_categoryCounts batch corpus)
  rw [lookupCount_categoryCounts] at hl
  by_cases hc : ((corpus ++ batch.terms).map (·.category)).count p.1 = 0
  · rw [if_pos hc] at hl; cases hl
  · rw [if_neg hc] at hl
    refine ⟨(Option.some.inj hl).symm, List.count_pos_iff.mp (by omega)⟩

theorem mem_uniqueFirst (l : List String) (x : String) :
    x ∈ uniqueFirst l ↔ x ∈ l := by
  have haux : ∀ (l2 : List String) (acc : List String),
      x ∈ l2.foldl (fun acc y => if y ∈ acc then acc else acc ++ [y]) acc
        ↔ x ∈ acc ∨ x ∈ l2 := by
    intro l2
    induction l2 with
    | nil => intro acc; simp
    | cons y ys ih =>
      intro acc
      rw [List.foldl_cons]
      by_cases hy : y ∈ acc
      · rw [if_pos hy, ih]
        constructor
        · rintro (h | h)
          · exact Or.inl h
          · exact Or.inr (List.mem_cons_of_mem _ h)
        · rintro (h | h)
          · exact Or.inl h
          · rcases List.mem_cons.mp h with rfl | h2
            · exact Or.inl hy
            · exact Or.inr h2
      · rw [if_neg hy, ih]
        simp only [List.mem_append, List.mem_singleton, List.mem_cons]
        tauto
  rw [uniqueFirst, haux]
  simp

theorem filter_length_eq_count (ts : List GlossaryTerm) (k : String) :
    (ts.filter (fun t => t.category == k)).length = (ts.map (·.category)).count k := by
  rw [List.count, List.countP_map, List.countP_eq_length_filter]
  rfl
theorem quizMsg_head (c : String) (n : Nat) : (quizMsg c n).data.head? = some 'C' := by
  rw [quizMsg]
  rw [String.data_append, String.data_append, String.data_append, String.data_append,
    String.data_append, String.data_append]
  rw [show ("Category \"").data = 'C' :: "ategory \"".data from rfl]
  simp

theorem newCatMsg_head (c : String) (n : Nat) : (newCatMsg c n).data.head? = some 'N' := by
  rw [newCatMsg]
  rw [String.data_append, String.data_append, String.data_append, String.data_append,
    String.data_append, String.data_append]
  rw [show ("NEW category \"").data = 'N' :: "EW category \"".data from rfl]
  simp

theorem newCatMsg_ne_quizMsg (c1 : String) (n1 : Nat) (c2 : String) (n2 : Nat) :
    newCatMsg c1 n1 ≠ quizMsg c2 n2 := by
  intro h
  have hh := congrArg (fun s => s.data.head?) h
  simp only [newCatMsg_head, quizMsg_head] at hh
  exact absurd (Option.some.inj hh) (by decide)

/-- C5: the quiz-readiness audit warns for every counted category whose
combined corpus-plus-batch count is under 4, additionally warns with a
distinct message for every category the batch introduces (absent from the
whole corpus) whose batch-local count is under 4, stays silent when every
category of corpus and batch has at least 4 combined terms, and these
warnings never affect validity: `valid` is determined by the structural
passes and the cross-reference errors alone. -/
theorem c5_quiz_readiness_audit (batch : GlossaryBatch) (corpus : List GlossaryTerm) :
    (∀ cat ∈ (corpus ++ batch.terms).map (·.category),
       ((corpus ++ batch.terms).map (·.category)).count cat < 4 →
         quizMsg cat (((corpus ++ batch.terms).map (·.category)).count cat)
           ∈ checkQuizRequirements batch corpus)
    ∧ (∀ cat ∈ batch.terms.map (·.category), (∀ t ∈ corpus, t.category ≠ cat) →
        (batch.terms.filter (fun t => t.category == cat)).length < 4 →
          newCatMsg cat (batch.terms.filter (fun t => t.category == cat)).length
            ∈ checkQuizRequirements batch corpus)
    ∧ (∀ (c1 : String) (n1 : Nat) (c2 : String) (n2 : Nat),
        newCatMsg c1 n1 ≠ quizMsg c2 n2)
    ∧ ((∀ cat ∈ (corpus ++ batch.terms).map (·.category),
          4 ≤ ((corpus ++ batch.terms).map (·.category)).count cat) →
        checkQuizRequirements batch corpus = [])
    ∧ ((validateBatch batch corpus).valid = true ↔
        (validateJsonSchema batch ++ validateZodSchema batch = []
          ∧ validateCrossReferences batch corpus = [])) := by
  refine ⟨?_, ?_, newCatMsg_ne_quizMsg, ?_, ?_⟩
  · intro cat hcat hlt
    have hmem := mem_counts_of_mem_cats batch corpus cat hcat
    rw [checkQuizRequirements]
    apply List.mem_append_left
    rw [List.mem_filterMap]
    exact ⟨_, hmem, by rw [if_pos hlt]⟩
  · intro cat hcat hnone hlt
    rw [checkQuizRequirements]
    apply List.mem_append_right
    rw [List.mem_filterMap]
    refine ⟨cat, ?_, by rw [if_pos hlt]⟩
    rw [mem_uniqueFirst, List.mem_filter]
    refine ⟨hcat, ?_⟩
    rw [Bool.not_eq_true']
    rw [List.any_eq_false]
    intro t ht hbe
    exact hnone t ht (beq_iff_eq.mp hbe)
  · intro h4
    rw [checkQuizRequirements]
    refine List.append_eq_nil.mpr ⟨?_, ?_⟩
    · rw [List.filterMap_eq_nil_iff]
      intro p hp
      obtain ⟨hval, hmem⟩ := count_val_of_mem_counts hp
      rw [if_neg (by rw [hval]; have := h4 p.1 hmem; omega)]
    · rw [List.filterMap_eq_nil_iff]
      intro cat hcat
      rw [mem_uniqueFirst, List.mem_filter] at hcat
      obtain ⟨hmap, hany⟩ := hcat
      rw [Bool.not_eq_true', List.any_eq_false] at hany
      have hcorpus0 : (corpus.map (·.category)).count cat = 0 := by
        rw [List.count_eq_zero]
        intro hmm
        rcases List.mem_map.mp hmm with ⟨t, ht, hteq⟩
        exact hany t ht (beq_iff_eq.mpr hteq)
      have hmem2 : cat ∈ (corpus ++ batch.terms).map (·.category) := by
        rw [List.map_append]
        exact List.mem_append_right _ hmap
      have hlen : (batch.terms.filter (fun t => t.category == cat)).length
          = ((corpus ++ batch.terms).map (·.category)).count cat := by
        rw [filter_length_eq_count, List.map_append, List.count_append, hcorpus0]
        omega
      rw [if_neg (by rw [hlen]; have := h4 cat hmem2; omega)]
  · cases hs : (validateJsonSchema batch ++ validateZodSchema batch).isEmpty with
    | true =>
      have hnil := List.isEmpty_iff.mp hs
      simp only [validateBatch, hs, if_true]
      rw [hnil]
      simp [List.isEmpty_iff]
    | false =>
      have hne := List.isEmpty_eq_false.mp hs
      simp only [validateBatch, hs, Bool.false_eq_true, if_false]
      constructor
      · intro hF
        exact absurd hF (by decide)
      · rintro ⟨h1, _⟩
        exact absurd h1 hne

/-- C5 witness: the batch introducing two Cargo Systems terms over the
Navigation-only corpus draws both the generic and the new-category
warning, while the batch adding one Navigation term to the four existing
ones draws none. -/
theorem c5_quiz_readiness_audit_witness :
    quizMsg "Cargo Systems" 2 ∈ checkQuizRequirements newCatBatch navCorpus
      ∧ newCatMsg "Cargo Systems" 2 ∈ checkQuizRequirements newCatBatch navCorpus
      ∧ checkQuizRequirements navAddBatch navCorpus = [] := by
  refine ⟨?_, ?_, ?_⟩
  · exact (c5_quiz_readiness_audit newCatBatch navCorpus).1 "Cargo Systems"
      (by decide) (by decide)
  · exact (c5_quiz_readiness_audit newCatBatch navCorpus).2.1 "Cargo Systems"
      (by decide) (by decide) (by decide)
  · exact (c5_quiz_readiness_audit navAddBatch navCorpus).2.2.2.1 (by decide)
set_option maxRecDepth 40000

/-- C1 counterexample: a structurally valid batch whose only section
content is exactly 241 characters long is accepted with an empty warning
list — no `SemanticWarning` about truncation (or anything else) appears in
the report, contradicting the claimed 240-character length advisory. -/
theorem c1_length_advisory_counterexample :
    validateBatch batch241 navCorpus =
      { valid := true, errors := [], warnings := [], termCount := 1,
        categories := ["Navigation"] } := by
  decide

/-- C1 (amended): validation applies no length advisory between the hard
10–2000 bounds: content of exactly 241 characters yields no warning at all
and the batch is accepted, while content of 2001 characters is rejected by
both structural passes as a blocking error. -/
theorem c1_length_bounds_amended :
    validateBatch batch241 navCorpus =
      { valid := true, errors := [], warnings := [], termCount := 1,
        categories := ["Navigation"] }
    ∧ validateBatch batch2001 navCorpus =
      { valid := false
        errors := ["JSON Schema Error at /terms/0/sections/whatItIs/content: must NOT have more than 2000 characters",
          "Zod Error at terms.0.sections.whatItIs.content: Content must not exceed 2000 characters"]
        warnings := [], termCount := 0, categories := [] } := by
  constructor
  · decide
  · decide

/-- C2 witness: the double merge of one batch file at two different merge
times leaves exactly the entry of the second merge. -/
theorem c2_upsert_idempotent_witness :
    (updateManifest (updateManifest ⟨[]⟩ "data/batches/2025-10-30-batch-000.json" 100 febBatch)
       "data/batches/2025-10-30-batch-000.json" 200 febBatch).batches
      = [createManifestEntry "data/batches/2025-10-30-batch-000.json" 200 febBatch] :=
  c2_upsert_idempotent.2.2 "data/batches/2025-10-30-batch-000.json" 100 200 febBatch

/-- C6 witness: the merge of the 2025-02-01 example leaves the manifest
pairwise descending by `createdAt`. -/
theorem c6_manifest_sorted_descending_witness :
    ((updateManifest janMarManifest "data/batches/2025-02-01-batch-001.json"
        1738368000000 febBatch).batches).Pairwise
      (fun a b2 => b2.createdAt ≤ a.createdAt) :=
  c6_manifest_sorted_descending.1 janMarManifest "data/batches/2025-02-01-batch-001.json"
    1738368000000 febBatch
